import Mathlib

/-!
Verification of the authenticated HTTP request pipeline of the insights
SDK: token acquisition, caching and expiry in `auth.py`, and the retrying
POST executor in `client.py`.  Times and backoff durations are modelled as
rationals; the network is modelled as an environment function giving, for
each attempt index, the outcome of that attempt's HTTP call (a response
with a status code and parsed JSON, or a transport-level exception).
-/

namespace InsightsSDK

/-- The five retryable transport-level exceptions of RETRYABLE_EXCEPTIONS
in auth.py (httpx.ConnectTimeout, ReadTimeout, WriteTimeout, ConnectError,
RemoteProtocolError). -/
inductive TransportErr where
  | connectTimeout
  | readTimeout
  | writeTimeout
  | connectError
  | remoteProtocolError
deriving DecidableEq

/-- RETRYABLE_STATUS_CODES = {429, 500, 502, 503, 504} from auth.py. -/
def RETRYABLE_STATUS_CODES : List Nat := [429, 500, 502, 503, 504]

/-- Membership test `response.status_code in RETRYABLE_STATUS_CODES`. -/
def retryableStatus (status : Nat) : Bool :=
  RETRYABLE_STATUS_CODES.contains status

/-- httpx `response.is_success`: `raise_for_status` raises exactly when the
status code is not in the 2xx range. -/
def is2xx (status : Nat) : Bool :=
  decide (200 ≤ status ∧ status < 300)

/-- The mutable token state of an AuthClient / AsyncAuthClient:
`_access_token : Optional[str]` and `_token_expiry : float`
(auth.py lines 86-87; initially None and 0). -/
structure AuthState where
  accessToken : Option String
  tokenExpiry : ℚ
deriving DecidableEq

/-- The initial state set by `AuthClient.__init__`. -/
def initialAuthState : AuthState :=
  { accessToken := none, tokenExpiry := 0 }

/-- Python truthiness of `self._access_token`: the guard
`if not self._access_token` treats both None and the empty string as
no token. -/
def tokenTruthy : Option String → Bool
  | none => false
  | some t => !(t == "")

/-- `AuthClient.is_token_valid` (auth.py lines 89-95): false when
`not self._access_token`; otherwise `time.time() < (self._token_expiry - 60)`. -/
def is_token_valid (s : AuthState) (now : ℚ) : Bool :=
  if !tokenTruthy s.accessToken then false
  else decide (now < s.tokenExpiry - 60)

/-- `AuthClient.invalidate_token` (auth.py lines 181-184). -/
def invalidate_token (_s : AuthState) : AuthState :=
  { accessToken := none, tokenExpiry := 0 }

/-- The JSON body of a token-endpoint response: each OAuth2 field is
optionally present. -/
structure TokenJson where
  access_token : Option String
  token_type : Option String
  expires_in : Option ℚ
  scope : Option String
deriving DecidableEq

/-- The parsed `TokenResponse` dataclass of auth.py. -/
structure TokenResponse where
  access_token : String
  token_type : String
  expires_in : ℚ
  scope : String
deriving DecidableEq

/-- Outcome of one HTTP call against the token endpoint: a response
(status code plus JSON body) or a retryable transport exception. -/
inductive TokenAttempt where
  | resp (status : Nat) (json : TokenJson)
  | exc (e : TransportErr)
deriving DecidableEq

/-- Errors the pipeline can raise: a re-raised retryable transport
exception, an httpx.HTTPStatusError from `raise_for_status`, or the
KeyError from `data["access_token"]` on a token response missing the
required field. -/
inductive RefreshError where
  | transport (e : TransportErr)
  | httpStatus (status : Nat)
  | missingAccessToken
deriving DecidableEq

/-- Parsing of a 2xx token response body in `AuthClient._refresh_token`
(auth.py lines 148-154): `data["access_token"]` raises on a missing key,
the other fields use `.get` with defaults "Bearer", 900 and "". -/
def parseTokenResponse (j : TokenJson) : Except RefreshError TokenResponse :=
  match j.access_token with
  | none => .error .missingAccessToken
  | some tok =>
      .ok { access_token := tok,
            token_type := j.token_type.getD "Bearer",
            expires_in := j.expires_in.getD 900,
            scope := j.scope.getD "" }

instance {ε α : Type} [DecidableEq ε] [DecidableEq α] : DecidableEq (Except ε α) :=
  fun a b =>
    match a, b with
    | .error e1, .error e2 => decidable_of_iff (e1 = e2) (by simp)
    | .ok a1, .ok a2 => decidable_of_iff (a1 = a2) (by simp)
    | .error _, .ok _ => isFalse (by simp)
    | .ok _, .error _ => isFalse (by simp)

/-- Observable outcome of a run of `AuthClient._refresh_token`: the final
token state, the returned token response or raised error, the number of
HTTP calls made against the token endpoint, and the backoff delays slept,
in order. -/
structure RefreshOut where
  state : AuthState
  result : Except RefreshError TokenResponse
  attempts : Nat
  sleeps : List ℚ
deriving DecidableEq

/-- `AuthClient._refresh_token` (auth.py lines 111-179), from loop index
`attempt` on: each iteration posts to the token endpoint (`env attempt`);
a retryable status with `attempt < max_retries` sleeps
`retry_backoff * 2 ^ attempt` and continues; otherwise `raise_for_status`
fires on any non-2xx status; a 2xx response is parsed and on success the
token and `now + expires_in` are stored and the token returned; a
retryable transport exception sleeps and continues while
`attempt < max_retries` and is re-raised on the final attempt. -/
def refreshGo (maxRetries : Nat) (retryBackoff : ℚ) (env : Nat → TokenAttempt)
    (now : ℚ) (s : AuthState) (attempt : Nat) : RefreshOut :=
  match env attempt with
  | .exc e =>
      if h : attempt < maxRetries then
        let out := refreshGo maxRetries retryBackoff env now s (attempt + 1)
        { out with attempts := out.attempts + 1,
                   sleeps := retryBackoff * 2 ^ attempt :: out.sleeps }
      else
        { state := s, result := .error (.transport e), attempts := 1, sleeps := [] }
  | .resp status j =>
      if h : retryableStatus status = true ∧ attempt < maxRetries then
        let out := refreshGo maxRetries retryBackoff env now s (attempt + 1)
        { out with attempts := out.attempts + 1,
                   sleeps := retryBackoff * 2 ^ attempt :: out.sleeps }
      else if is2xx status = false then
        { state := s, result := .error (.httpStatus status), attempts := 1, sleeps := [] }
      else
        match parseTokenResponse j with
        | .error err =>
            { state := s, result := .error err, attempts := 1, sleeps := [] }
        | .ok tr =>
            { state := { accessToken := some tr.access_token,
                         tokenExpiry := now + tr.expires_in },
              result := .ok tr, attempts := 1, sleeps := [] }
termination_by maxRetries + 1 - attempt
decreasing_by
  · omega
  · omega

/-- A full `_refresh_token` call starts at attempt 0. -/
def refresh_token (maxRetries : Nat) (retryBackoff : ℚ) (env : Nat → TokenAttempt)
    (now : ℚ) (s : AuthState) : RefreshOut :=
  refreshGo maxRetries retryBackoff env now s 0

/-- Observable outcome of `AuthClient.get_token`: final state, returned
token string or raised error, token-endpoint call count, sleeps. -/
structure GetTokenOut where
  state : AuthState
  result : Except RefreshError String
  attempts : Nat
  sleeps : List ℚ
deriving DecidableEq

/-- `AuthClient.get_token` (auth.py lines 97-109): if `is_token_valid`,
return the cached `_access_token` with no I/O; otherwise `_refresh_token`. -/
def get_token (maxRetries : Nat) (retryBackoff : ℚ) (env : Nat → TokenAttempt)
    (now : ℚ) (s : AuthState) : GetTokenOut :=
  if is_token_valid s now then
    { state := s, result := .ok (s.accessToken.getD ""), attempts := 0, sleeps := [] }
  else
    let out := refreshGo maxRetries retryBackoff env now s 0
    { state := out.state,
      result := out.result.map (fun tr => tr.access_token),
      attempts := out.attempts, sleeps := out.sleeps }

/-- Observable outcome of `AsyncAuthClient._refresh_token`: the async
variant returns the token string directly (it builds no TokenResponse). -/
structure AsyncRefreshOut where
  state : AuthState
  result : Except RefreshError String
  attempts : Nat
  sleeps : List ℚ
deriving DecidableEq

/-- `AsyncAuthClient._refresh_token` (auth.py lines 243-306): the same
loop as the blocking variant, except that on a 2xx response it stores
`data["access_token"]` and `now + data.get("expires_in", 900)` directly,
without building a TokenResponse, and `await asyncio.sleep` replaces
`time.sleep`. -/
def asyncRefreshGo (maxRetries : Nat) (retryBackoff : ℚ) (env : Nat → TokenAttempt)
    (now : ℚ) (s : AuthState) (attempt : Nat) : AsyncRefreshOut :=
  match env attempt with
  | .exc e =>
      if h : attempt < maxRetries then
        let out := asyncRefreshGo maxRetries retryBackoff env now s (attempt + 1)
        { out with attempts := out.attempts + 1,
                   sleeps := retryBackoff * 2 ^ attempt :: out.sleeps }
      else
        { state := s, result := .error (.transport e), attempts := 1, sleeps := [] }
  | .resp status j =>
      if h : retryableStatus status = true ∧ attempt < maxRetries then
        let out := asyncRefreshGo maxRetries retryBackoff env now s (attempt + 1)
        { out with attempts := out.attempts + 1,
                   sleeps := retryBackoff * 2 ^ attempt :: out.sleeps }
      else if is2xx status = false then
        { state := s, result := .error (.httpStatus status), attempts := 1, sleeps := [] }
      else
        match j.access_token with
        | none =>
            { state := s, result := .error .missingAccessToken, attempts := 1, sleeps := [] }
        | some tok =>
            { state := { accessToken := some tok,
                         tokenExpiry := now + j.expires_in.getD 900 },
              result := .ok tok, attempts := 1, sleeps := [] }
termination_by maxRetries + 1 - attempt
decreasing_by
  · omega
  · omega

/-- `AsyncAuthClient.get_token` (auth.py lines 236-241): same guard as the
blocking variant. -/
def asyncGetToken (maxRetries : Nat) (retryBackoff : ℚ) (env : Nat → TokenAttempt)
    (now : ℚ) (s : AuthState) : GetTokenOut :=
  if is_token_valid s now then
    { state := s, result := .ok (s.accessToken.getD ""), attempts := 0, sleeps := [] }
  else
    let out := asyncRefreshGo maxRetries retryBackoff env now s 0
    { state := out.state, result := out.result,
      attempts := out.attempts, sleeps := out.sleeps }

/-- Outcome of one HTTP call against the resource endpoint; the JSON
response body is not interpreted by the executor and is modelled as a
string. -/
inductive ResourceAttempt where
  | resp (status : Nat) (body : String)
  | exc (e : TransportErr)
deriving DecidableEq

/-- Observable outcome of a run of `InsightsClient._post`: the final auth
state, the returned body or raised error, the number of loop iterations,
the number of HTTP calls against the resource endpoint and against the
token endpoint, and the executor-level backoff delays slept, in order. -/
structure PostOut where
  auth : AuthState
  result : Except RefreshError String
  attempts : Nat
  resourceCalls : Nat
  tokenCalls : Nat
  sleeps : List ℚ
deriving DecidableEq

/-- `InsightsClient._post` (client.py lines 108-164), from loop index
`attempt` on.  Each iteration first calls `self._get_headers()`, which
calls `self._auth.get_token()` (client.py lines 96-102): a retryable
transport exception propagating from the exhausted auth retry loop is
caught by the executor's `except RETRYABLE_EXCEPTIONS` clause, while an
HTTPStatusError or KeyError from the auth client propagates immediately.
With headers in hand the resource endpoint is called (`resourceEnv
attempt`) and classified exactly as in the token loop; a 2xx response
returns its JSON body. -/
def postGo (maxRetries : Nat) (retryBackoff : ℚ)
    (authMaxRetries : Nat) (authBackoff : ℚ)
    (tokenEnv : Nat → Nat → TokenAttempt) (resourceEnv : Nat → ResourceAttempt)
    (now : ℚ) (s : AuthState) (attempt : Nat) : PostOut :=
  let g := get_token authMaxRetries authBackoff (tokenEnv attempt) now s
  match g.result with
  | .error (.transport e) =>
      if h : attempt < maxRetries then
        let out := postGo maxRetries retryBackoff authMaxRetries authBackoff
          tokenEnv resourceEnv now g.state (attempt + 1)
        { out with attempts := out.attempts + 1,
                   tokenCalls := g.attempts + out.tokenCalls,
                   sleeps := retryBackoff * 2 ^ attempt :: out.sleeps }
      else
        { auth := g.state, result := .error (.transport e), attempts := 1,
          resourceCalls := 0, tokenCalls := g.attempts, sleeps := [] }
  | .error (.httpStatus st) =>
      { auth := g.state, result := .error (.httpStatus st), attempts := 1,
        resourceCalls := 0, tokenCalls := g.attempts, sleeps := [] }
  | .error .missingAccessToken =>
      { auth := g.state, result := .error .missingAccessToken, attempts := 1,
        resourceCalls := 0, tokenCalls := g.attempts, sleeps := [] }
  | .ok _tok =>
      match resourceEnv attempt with
      | .exc e =>
          if h : attempt < maxRetries then
            let out := postGo maxRetries retryBackoff authMaxRetries authBackoff
              tokenEnv resourceEnv now g.state (attempt + 1)
            { out with attempts := out.attempts + 1,
                       resourceCalls := out.resourceCalls + 1,
                       tokenCalls := g.attempts + out.tokenCalls,
                       sleeps := retryBackoff * 2 ^ attempt :: out.sleeps }
          else
            { auth := g.state, result := .error (.transport e), attempts := 1,
              resourceCalls := 1, tokenCalls := g.attempts, sleeps := [] }
      | .resp status body =>
          if h : retryableStatus status = true ∧ attempt < maxRetries then
            let out := postGo maxRetries retryBackoff authMaxRetries authBackoff
              tokenEnv resourceEnv now g.state (attempt + 1)
            { out with attempts := out.attempts + 1,
                       resourceCalls := out.resourceCalls + 1,
                       tokenCalls := g.attempts + out.tokenCalls,
                       sleeps := retryBackoff * 2 ^ attempt :: out.sleeps }
          else if is2xx status = false then
            { auth := g.state, result := .error (.httpStatus status), attempts := 1,
              resourceCalls := 1, tokenCalls := g.attempts, sleeps := [] }
          else
            { auth := g.state, result := .ok body, attempts := 1,
              resourceCalls := 1, tokenCalls := g.attempts, sleeps := [] }
termination_by maxRetries + 1 - attempt
decreasing_by
  · omega
  · omega
  · omega

/-- `AsyncInsightsClient._post` (client.py lines 588-644): the same loop
as the blocking variant, with awaited client/header acquisition and
`await asyncio.sleep` backoff, calling the async auth client. -/
def asyncPostGo (maxRetries : Nat) (retryBackoff : ℚ)
    (authMaxRetries : Nat) (authBackoff : ℚ)
    (tokenEnv : Nat → Nat → TokenAttempt) (resourceEnv : Nat → ResourceAttempt)
    (now : ℚ) (s : AuthState) (attempt : Nat) : PostOut :=
  let g := asyncGetToken authMaxRetries authBackoff (tokenEnv attempt) now s
  match g.result with
  | .error (.transport e) =>
      if h : attempt < maxRetries then
        let out := asyncPostGo maxRetries retryBackoff authMaxRetries authBackoff
          tokenEnv resourceEnv now g.state (attempt + 1)
        { out with attempts := out.attempts + 1,
                   tokenCalls := g.attempts + out.tokenCalls,
                   sleeps := retryBackoff * 2 ^ attempt :: out.sleeps }
      else
        { auth := g.state, result := .error (.transport e), attempts := 1,
          resourceCalls := 0, tokenCalls := g.attempts, sleeps := [] }
  | .error (.httpStatus st) =>
      { auth := g.state, result := .error (.httpStatus st), attempts := 1,
        resourceCalls := 0, tokenCalls := g.attempts, sleeps := [] }
  | .error .missingAccessToken =>
      { auth := g.state, result := .error .missingAccessToken, attempts := 1,
        resourceCalls := 0, tokenCalls := g.attempts, sleeps := [] }
  | .ok _tok =>
      match resourceEnv attempt with
      | .exc e =>
          if h : attempt < maxRetries then
            let out := asyncPostGo maxRetries retryBackoff authMaxRetries authBackoff
              tokenEnv resourceEnv now g.state (attempt + 1)
            { out with attempts := out.attempts + 1,
                       resourceCalls := out.resourceCalls + 1,
                       tokenCalls := g.attempts + out.tokenCalls,
                       sleeps := retryBackoff * 2 ^ attempt :: out.sleeps }
          else
            { auth := g.state, result := .error (.transport e), attempts := 1,
              resourceCalls := 1, tokenCalls := g.attempts, sleeps := [] }
      | .resp status body =>
          if h : retryableStatus status = true ∧ attempt < maxRetries then
            let out := asyncPostGo maxRetries retryBackoff authMaxRetries authBackoff
              tokenEnv resourceEnv now g.state (attempt + 1)
            { out with attempts := out.attempts + 1,
                       resourceCalls := out.resourceCalls + 1,
                       tokenCalls := g.attempts + out.tokenCalls,
                       sleeps := retryBackoff * 2 ^ attempt :: out.sleeps }
          else if is2xx status = false then
            { auth := g.state, result := .error (.httpStatus status), attempts := 1,
              resourceCalls := 1, tokenCalls := g.attempts, sleeps := [] }
          else
            { auth := g.state, result := .ok body, attempts := 1,
              resourceCalls := 1, tokenCalls := g.attempts, sleeps := [] }
termination_by maxRetries + 1 - attempt
decreasing_by
  · omega
  · omega
  · omega

/-- A token-endpoint attempt that triggers the retry path: one of the
retryable transport exceptions, or a response with a retryable status. -/
def retryableTokenAttempt : TokenAttempt → Bool
  | .exc _ => true
  | .resp status _ => retryableStatus status

/-- A resource-endpoint attempt that triggers the retry path. -/
def retryableResourceAttempt : ResourceAttempt → Bool
  | .exc _ => true
  | .resp status _ => retryableStatus status

/-- Terminal error of a run in which every attempt is retryable: decided
by the outcome of the final attempt. -/
def terminalTokenError (att : TokenAttempt) : Except RefreshError TokenResponse :=
  match att with
  | .exc e => .error (.transport e)
  | .resp status _ => .error (.httpStatus status)

/-- Terminal error of an executor run whose every resource attempt is
retryable: decided by the final attempt's outcome. -/
def terminalResourceError (att : ResourceAttempt) : Except RefreshError String :=
  match att with
  | .exc e => .error (.transport e)
  | .resp status _ => .error (.httpStatus status)


theorem is2xx_not_retryable {status : Nat} (h : is2xx status = true) :
    retryableStatus status = false := by
  simp [is2xx] at h
  simp [retryableStatus, RETRYABLE_STATUS_CODES]
  omega

theorem refreshGo_exc_retry {mR : Nat} {bo : ℚ} {env : Nat → TokenAttempt} {now : ℚ}
    {s : AuthState} {a : Nat} {e : TransportErr}
    (h1 : env a = .exc e) (h2 : a < mR) :
    refreshGo mR bo env now s a =
      { refreshGo mR bo env now s (a + 1) with
        attempts := (refreshGo mR bo env now s (a + 1)).attempts + 1,
        sleeps := bo * 2 ^ a :: (refreshGo mR bo env now s (a + 1)).sleeps } := by
  rw [refreshGo.eq_def, h1]
  simp [h2]

theorem refreshGo_exc_last {mR : Nat} {bo : ℚ} {env : Nat → TokenAttempt} {now : ℚ}
    {s : AuthState} {a : Nat} {e : TransportErr}
    (h1 : env a = .exc e) (h2 : ¬ a < mR) :
    refreshGo mR bo env now s a =
      { state := s, result := .error (.transport e), attempts := 1, sleeps := [] } := by
  rw [refreshGo.eq_def, h1]
  simp [h2]

theorem refreshGo_resp_retry {mR : Nat} {bo : ℚ} {env : Nat → TokenAttempt} {now : ℚ}
    {s : AuthState} {a : Nat} {status : Nat} {j : TokenJson}
    (h1 : env a = .resp status j) (h2 : retryableStatus status = true) (h3 : a < mR) :
    refreshGo mR bo env now s a =
      { refreshGo mR bo env now s (a + 1) with
        attempts := (refreshGo mR bo env now s (a + 1)).attempts + 1,
        sleeps := bo * 2 ^ a :: (refreshGo mR bo env now s (a + 1)).sleeps } := by
  rw [refreshGo.eq_def, h1]
  simp [h2, h3]

theorem refreshGo_resp_noretry_non2xx {mR : Nat} {bo : ℚ} {env : Nat → TokenAttempt} {now : ℚ}
    {s : AuthState} {a : Nat} {status : Nat} {j : TokenJson}
    (h1 : env a = .resp status j) (h2 : ¬ (retryableStatus status = true ∧ a < mR))
    (h3 : is2xx status = false) :
    refreshGo mR bo env now s a =
      { state := s, result := .error (.httpStatus status), attempts := 1, sleeps := [] } := by
  rw [refreshGo.eq_def, h1]
  simp [h2, h3]

theorem refreshGo_resp_2xx_missing {mR : Nat} {bo : ℚ} {env : Nat → TokenAttempt} {now : ℚ}
    {s : AuthState} {a : Nat} {status : Nat} {j : TokenJson}
    (h1 : env a = .resp status j) (h2 : is2xx status = true) (h3 : j.access_token = none) :
    refreshGo mR bo env now s a =
      { state := s, result := .error .missingAccessToken, attempts := 1, sleeps := [] } := by
  rw [refreshGo.eq_def, h1]
  simp [is2xx_not_retryable h2, h2, parseTokenResponse, h3]

theorem refreshGo_resp_2xx_ok {mR : Nat} {bo : ℚ} {env : Nat → TokenAttempt} {now : ℚ}
    {s : AuthState} {a : Nat} {status : Nat} {j : TokenJson} {tok : String}
    (h1 : env a = .resp status j) (h2 : is2xx status = true) (h3 : j.access_token = some tok) :
    refreshGo mR bo env now s a =
      { state := { accessToken := some tok, tokenExpiry := now + j.expires_in.getD 900 },
        result := .ok { access_token := tok, token_type := j.token_type.getD "Bearer",
                        expires_in := j.expires_in.getD 900, scope := j.scope.getD "" },
        attempts := 1, sleeps := [] } := by
  rw [refreshGo.eq_def, h1]
  simp [is2xx_not_retryable h2, h2, parseTokenResponse, h3]

theorem refreshGo_error_state {mR : Nat} {bo : ℚ} {env : Nat → TokenAttempt} {now : ℚ}
    {s : AuthState} :
    ∀ a, ∀ err, (refreshGo mR bo env now s a).result = .error err →
      (refreshGo mR bo env now s a).state = s := by
  intro a
  induction a using refreshGo.induct mR bo env now s with
  | case1 x e henv hlt ih =>
    intro err h
    rw [refreshGo_exc_retry henv hlt] at h ⊢
    exact ih err h
  | case2 x e henv hnlt =>
    intro err h
    rw [refreshGo_exc_last henv hnlt]
  | case3 x status j henv hcond ih =>
    intro err h
    rw [refreshGo_resp_retry henv hcond.1 hcond.2] at h ⊢
    exact ih err h
  | case4 x status j henv hcond h2xx =>
    intro err h
    rw [refreshGo_resp_noretry_non2xx henv hcond h2xx]
  | case5 x status j henv hcond h2xx err0 hparse =>
    intro err h
    have h2 : is2xx status = true := by
      cases hs : is2xx status
      · exact absurd hs h2xx
      · rfl
    cases htok : j.access_token with
    | none => rw [refreshGo_resp_2xx_missing henv h2 htok]
    | some tok =>
      simp [parseTokenResponse, htok] at hparse
  | case6 x status j henv hcond h2xx tr hparse =>
    intro err h
    have h2 : is2xx status = true := by
      cases hs : is2xx status
      · exact absurd hs h2xx
      · rfl
    cases htok : j.access_token with
    | none => simp [parseTokenResponse, htok] at hparse
    | some tok =>
      rw [refreshGo_resp_2xx_ok henv h2 htok] at h
      simp at h


theorem refreshGo_allRetryable {mR : Nat} {bo : ℚ} {env : Nat → TokenAttempt} {now : ℚ}
    {s : AuthState} (hall : ∀ i, retryableTokenAttempt (env i) = true) :
    ∀ a, a ≤ mR →
      (refreshGo mR bo env now s a).attempts = mR + 1 - a ∧
      (refreshGo mR bo env now s a).state = s ∧
      (refreshGo mR bo env now s a).result = terminalTokenError (env mR) := by
  intro a
  induction a using refreshGo.induct mR bo env now s with
  | case1 x e henv hlt ih =>
    intro _
    rw [refreshGo_exc_retry henv hlt]
    have h := ih (by omega)
    refine ⟨?_, h.2.1, h.2.2⟩
    simp only [h.1]
    omega
  | case2 x e henv hnlt =>
    intro ha
    have hx : x = mR := by omega
    rw [refreshGo_exc_last henv hnlt]
    subst hx
    rw [henv]
    simp [terminalTokenError]
  | case3 x status j henv hcond ih =>
    intro _
    rw [refreshGo_resp_retry henv hcond.1 hcond.2]
    have h := ih (by omega)
    refine ⟨?_, h.2.1, h.2.2⟩
    simp only [h.1]
    omega
  | case4 x status j henv hcond h2xx =>
    intro ha
    have hretry : retryableStatus status = true := by
      have := hall x
      rw [henv] at this
      simpa [retryableTokenAttempt] using this
    have hx : x = mR := by
      rcases Nat.lt_or_ge x mR with h | h
      · exact absurd ⟨hretry, h⟩ hcond
      · omega
    rw [refreshGo_resp_noretry_non2xx henv hcond h2xx]
    subst hx
    rw [henv]
    simp [terminalTokenError]
  | case5 x status j henv hcond h2xx err0 hparse =>
    intro _
    have hretry : retryableStatus status = true := by
      have := hall x
      rw [henv] at this
      simpa [retryableTokenAttempt] using this
    have h2 : is2xx status = true := by
      cases hs : is2xx status
      · exact absurd hs h2xx
      · rfl
    rw [is2xx_not_retryable h2] at hretry
    exact absurd hretry (by simp)
  | case6 x status j henv hcond h2xx tr hparse =>
    intro _
    have hretry : retryableStatus status = true := by
      have := hall x
      rw [henv] at this
      simpa [retryableTokenAttempt] using this
    have h2 : is2xx status = true := by
      cases hs : is2xx status
      · exact absurd hs h2xx
      · rfl
    rw [is2xx_not_retryable h2] at hretry
    exact absurd hretry (by simp)

theorem refreshGo_sleeps_shape {mR : Nat} {bo : ℚ} {env : Nat → TokenAttempt} {now : ℚ}
    {s : AuthState} :
    ∀ a, (refreshGo mR bo env now s a).sleeps =
        (List.range ((refreshGo mR bo env now s a).attempts - 1)).map
          (fun i => bo * 2 ^ (a + i))
      ∧ 1 ≤ (refreshGo mR bo env now s a).attempts := by
  intro a
  induction a using refreshGo.induct mR bo env now s with
  | case1 x e henv hlt ih =>
    rw [refreshGo_exc_retry henv hlt]
    obtain ⟨hsl, hat⟩ := ih
    constructor
    · simp only [Nat.add_sub_cancel]
      obtain ⟨k, hk⟩ : ∃ k, (refreshGo mR bo env now s (x + 1)).attempts = k + 1 :=
        ⟨(refreshGo mR bo env now s (x + 1)).attempts - 1, by omega⟩
      rw [hk] at hsl ⊢
      simp only [Nat.add_sub_cancel] at hsl
      rw [List.range_succ_eq_map, List.map_cons, List.map_map, hsl]
      congr 1
      apply List.map_congr_left
      intro i _
      simp only [Function.comp_apply]
      have hsucc : x + 1 + i = x + Nat.succ i := by omega
      rw [hsucc]
    · simp
  | case2 x e henv hnlt =>
    rw [refreshGo_exc_last henv hnlt]
    simp
  | case3 x status j henv hcond ih =>
    rw [refreshGo_resp_retry henv hcond.1 hcond.2]
    obtain ⟨hsl, hat⟩ := ih
    constructor
    · simp only [Nat.add_sub_cancel]
      obtain ⟨k, hk⟩ : ∃ k, (refreshGo mR bo env now s (x + 1)).attempts = k + 1 :=
        ⟨(refreshGo mR bo env now s (x + 1)).attempts - 1, by omega⟩
      rw [hk] at hsl ⊢
      simp only [Nat.add_sub_cancel] at hsl
      rw [List.range_succ_eq_map, List.map_cons, List.map_map, hsl]
      congr 1
      apply List.map_congr_left
      intro i _
      simp only [Function.comp_apply]
      have hsucc : x + 1 + i = x + Nat.succ i := by omega
      rw [hsucc]
    · simp
  | case4 x status j henv hcond h2xx =>
    rw [refreshGo_resp_noretry_non2xx henv hcond h2xx]
    simp
  | case5 x status j henv hcond h2xx err0 hparse =>
    have h2 : is2xx status = true := by
      cases hs : is2xx status
      · exact absurd hs h2xx
      · rfl
    cases htok : j.access_token with
    | none => rw [refreshGo_resp_2xx_missing henv h2 htok]; simp
    | some tok => simp [parseTokenResponse, htok] at hparse
  | case6 x status j henv hcond h2xx tr hparse =>
    have h2 : is2xx status = true := by
      cases hs : is2xx status
      · exact absurd hs h2xx
      · rfl
    cases htok : j.access_token with
    | none => simp [parseTokenResponse, htok] at hparse
    | some tok => rw [refreshGo_resp_2xx_ok henv h2 htok]; simp


theorem retryable_not_is2xx {status : Nat} (h : retryableStatus status = true) :
    is2xx status = false := by
  simp [retryableStatus, RETRYABLE_STATUS_CODES] at h
  simp [is2xx]
  omega

theorem postGo_authTransport_retry {mR : Nat} {bo : ℚ} {aMR : Nat} {aBo : ℚ}
    {tokenEnv : Nat → Nat → TokenAttempt} {resourceEnv : Nat → ResourceAttempt}
    {now : ℚ} {s : AuthState} {a : Nat} {e : TransportErr}
    (hg : (get_token aMR aBo (tokenEnv a) now s).result = .error (.transport e))
    (h2 : a < mR) :
    postGo mR bo aMR aBo tokenEnv resourceEnv now s a =
      { postGo mR bo aMR aBo tokenEnv resourceEnv now
          (get_token aMR aBo (tokenEnv a) now s).state (a + 1) with
        attempts := (postGo mR bo aMR aBo tokenEnv resourceEnv now
          (get_token aMR aBo (tokenEnv a) now s).state (a + 1)).attempts + 1,
        tokenCalls := (get_token aMR aBo (tokenEnv a) now s).attempts +
          (postGo mR bo aMR aBo tokenEnv resourceEnv now
            (get_token aMR aBo (tokenEnv a) now s).state (a + 1)).tokenCalls,
        sleeps := bo * 2 ^ a :: (postGo mR bo aMR aBo tokenEnv resourceEnv now
          (get_token aMR aBo (tokenEnv a) now s).state (a + 1)).sleeps } := by
  rw [postGo.eq_def]
  simp only [hg, h2, dif_pos]

theorem postGo_authTransport_last {mR : Nat} {bo : ℚ} {aMR : Nat} {aBo : ℚ}
    {tokenEnv : Nat → Nat → TokenAttempt} {resourceEnv : Nat → ResourceAttempt}
    {now : ℚ} {s : AuthState} {a : Nat} {e : TransportErr}
    (hg : (get_token aMR aBo (tokenEnv a) now s).result = .error (.transport e))
    (h2 : ¬ a < mR) :
    postGo mR bo aMR aBo tokenEnv resourceEnv now s a =
      { auth := (get_token aMR aBo (tokenEnv a) now s).state,
        result := .error (.transport e), attempts := 1, resourceCalls := 0,
        tokenCalls := (get_token aMR aBo (tokenEnv a) now s).attempts, sleeps := [] } := by
  rw [postGo.eq_def]
  simp only [hg, h2, dif_neg, not_false_iff]

theorem postGo_authHttp {mR : Nat} {bo : ℚ} {aMR : Nat} {aBo : ℚ}
    {tokenEnv : Nat → Nat → TokenAttempt} {resourceEnv : Nat → ResourceAttempt}
    {now : ℚ} {s : AuthState} {a : Nat} {st : Nat}
    (hg : (get_token aMR aBo (tokenEnv a) now s).result = .error (.httpStatus st)) :
    postGo mR bo aMR aBo tokenEnv resourceEnv now s a =
      { auth := (get_token aMR aBo (tokenEnv a) now s).state,
        result := .error (.httpStatus st), attempts := 1, resourceCalls := 0,
        tokenCalls := (get_token aMR aBo (tokenEnv a) now s).attempts, sleeps := [] } := by
  rw [postGo.eq_def]
  simp only [hg]

theorem postGo_authMissing {mR : Nat} {bo : ℚ} {aMR : Nat} {aBo : ℚ}
    {tokenEnv : Nat → Nat → TokenAttempt} {resourceEnv : Nat → ResourceAttempt}
    {now : ℚ} {s : AuthState} {a : Nat}
    (hg : (get_token aMR aBo (tokenEnv a) now s).result = .error .missingAccessToken) :
    postGo mR bo aMR aBo tokenEnv resourceEnv now s a =
      { auth := (get_token aMR aBo (tokenEnv a) now s).state,
        result := .error .missingAccessToken, attempts := 1, resourceCalls := 0,
        tokenCalls := (get_token aMR aBo (tokenEnv a) now s).attempts, sleeps := [] } := by
  rw [postGo.eq_def]
  simp only [hg]

theorem postGo_ok_exc_retry {mR : Nat} {bo : ℚ} {aMR : Nat} {aBo : ℚ}
    {tokenEnv : Nat → Nat → TokenAttempt} {resourceEnv : Nat → ResourceAttempt}
    {now : ℚ} {s : AuthState} {a : Nat} {tok : String} {e : TransportErr}
    (hg : (get_token aMR aBo (tokenEnv a) now s).result = .ok tok)
    (hres : resourceEnv a = .exc e) (h2 : a < mR) :
    postGo mR bo aMR aBo tokenEnv resourceEnv now s a =
      { postGo mR bo aMR aBo tokenEnv resourceEnv now
          (get_token aMR aBo (tokenEnv a) now s).state (a + 1) with
        attempts := (postGo mR bo aMR aBo tokenEnv resourceEnv now
          (get_token aMR aBo (tokenEnv a) now s).state (a + 1)).attempts + 1,
        resourceCalls := (postGo mR bo aMR aBo tokenEnv resourceEnv now
          (get_token aMR aBo (tokenEnv a) now s).state (a + 1)).resourceCalls + 1,
        tokenCalls := (get_token aMR aBo (tokenEnv a) now s).attempts +
          (postGo mR bo aMR aBo tokenEnv resourceEnv now
            (get_token aMR aBo (tokenEnv a) now s).state (a + 1)).tokenCalls,
        sleeps := bo * 2 ^ a :: (postGo mR bo aMR aBo tokenEnv resourceEnv now
          (get_token aMR aBo (tokenEnv a) now s).state (a + 1)).sleeps } := by
  rw [postGo.eq_def]
  simp only [hg, hres, h2, dif_pos]

theorem postGo_ok_exc_last {mR : Nat} {bo : ℚ} {aMR : Nat} {aBo : ℚ}
    {tokenEnv : Nat → Nat → TokenAttempt} {resourceEnv : Nat → ResourceAttempt}
    {now : ℚ} {s : AuthState} {a : Nat} {tok : String} {e : TransportErr}
    (hg : (get_token aMR aBo (tokenEnv a) now s).result = .ok tok)
    (hres : resourceEnv a = .exc e) (h2 : ¬ a < mR) :
    postGo mR bo aMR aBo tokenEnv resourceEnv now s a =
      { auth := (get_token aMR aBo (tokenEnv a) now s).state,
        result := .error (.transport e), attempts := 1, resourceCalls := 1,
        tokenCalls := (get_token aMR aBo (tokenEnv a) now s).attempts, sleeps := [] } := by
  rw [postGo.eq_def]
  simp only [hg, hres, h2, dif_neg, not_false_iff]

theorem postGo_ok_resp_retry {mR : Nat} {bo : ℚ} {aMR : Nat} {aBo : ℚ}
    {tokenEnv : Nat → Nat → TokenAttempt} {resourceEnv : Nat → ResourceAttempt}
    {now : ℚ} {s : AuthState} {a : Nat} {tok : String} {status : Nat} {body : String}
    (hg : (get_token aMR aBo (tokenEnv a) now s).result = .ok tok)
    (hres : resourceEnv a = .resp status body)
    (h2 : retryableStatus status = true) (h3 : a < mR) :
    postGo mR bo aMR aBo tokenEnv resourceEnv now s a =
      { postGo mR bo aMR aBo tokenEnv resourceEnv now
          (get_token aMR aBo (tokenEnv a) now s).state (a + 1) with
        attempts := (postGo mR bo aMR aBo tokenEnv resourceEnv now
          (get_token aMR aBo (tokenEnv a) now s).state (a + 1)).attempts + 1,
        resourceCalls := (postGo mR bo aMR aBo tokenEnv resourceEnv now
          (get_token aMR aBo (tokenEnv a) now s).state (a + 1)).resourceCalls + 1,
        tokenCalls := (get_token aMR aBo (tokenEnv a) now s).attempts +
          (postGo mR bo aMR aBo tokenEnv resourceEnv now
            (get_token aMR aBo (tokenEnv a) now s).state (a + 1)).tokenCalls,
        sleeps := bo * 2 ^ a :: (postGo mR bo aMR aBo tokenEnv resourceEnv now
          (get_token aMR aBo (tokenEnv a) now s).state (a + 1)).sleeps } := by
  rw [postGo.eq_def]
  simp only [hg, hres, h2, h3, and_self, dif_pos]

theorem postGo_ok_resp_non2xx {mR : Nat} {bo : ℚ} {aMR : Nat} {aBo : ℚ}
    {tokenEnv : Nat → Nat → TokenAttempt} {resourceEnv : Nat → ResourceAttempt}
    {now : ℚ} {s : AuthState} {a : Nat} {tok : String} {status : Nat} {body : String}
    (hg : (get_token aMR aBo (tokenEnv a) now s).result = .ok tok)
    (hres : resourceEnv a = .resp status body)
    (h2 : ¬ (retryableStatus status = true ∧ a < mR)) (h3 : is2xx status = false) :
    postGo mR bo aMR aBo tokenEnv resourceEnv now s a =
      { auth := (get_token aMR aBo (tokenEnv a) now s).state,
        result := .error (.httpStatus status), attempts := 1, resourceCalls := 1,
        tokenCalls := (get_token aMR aBo (tokenEnv a) now s).attempts, sleeps := [] } := by
  rw [postGo.eq_def]
  simp only [hg, hres, h2, h3, dif_neg, not_false_iff, if_true]

theorem postGo_ok_resp_2xx {mR : Nat} {bo : ℚ} {aMR : Nat} {aBo : ℚ}
    {tokenEnv : Nat → Nat → TokenAttempt} {resourceEnv : Nat → ResourceAttempt}
    {now : ℚ} {s : AuthState} {a : Nat} {tok : String} {status : Nat} {body : String}
    (hg : (get_token aMR aBo (tokenEnv a) now s).result = .ok tok)
    (hres : resourceEnv a = .resp status body) (h2 : is2xx status = true) :
    postGo mR bo aMR aBo tokenEnv resourceEnv now s a =
      { auth := (get_token aMR aBo (tokenEnv a) now s).state,
        result := .ok body, attempts := 1, resourceCalls := 1,
        tokenCalls := (get_token aMR aBo (tokenEnv a) now s).attempts, sleeps := [] } := by
  rw [postGo.eq_def]
  simp only [hg, hres, is2xx_not_retryable h2, h2]
  rw [dif_neg (by simp)]
  simp


theorem sleeps_cons_shape {bo : ℚ} {a n : Nat} {l : List ℚ}
    (h : l = (List.range (n - 1)).map (fun i => bo * 2 ^ (a + 1 + i))) (hn : 1 ≤ n) :
    bo * 2 ^ a :: l = (List.range (n + 1 - 1)).map (fun i => bo * 2 ^ (a + i)) := by
  obtain ⟨k, rfl⟩ : ∃ k, n = k + 1 := ⟨n - 1, by omega⟩
  simp only [Nat.add_sub_cancel] at h ⊢
  rw [List.range_succ_eq_map, List.map_cons, List.map_map, h]
  congr 1
  apply List.map_congr_left
  intro i _
  simp only [Function.comp_apply]
  have hsucc : a + 1 + i = a + Nat.succ i := by omega
  rw [hsucc]

theorem postGo_sleeps_shape {mR : Nat} {bo : ℚ} {aMR : Nat} {aBo : ℚ}
    {tokenEnv : Nat → Nat → TokenAttempt} {resourceEnv : Nat → ResourceAttempt}
    {now : ℚ} :
    ∀ (s : AuthState) (a : Nat),
      (postGo mR bo aMR aBo tokenEnv resourceEnv now s a).sleeps =
        (List.range ((postGo mR bo aMR aBo tokenEnv resourceEnv now s a).attempts - 1)).map
          (fun i => bo * 2 ^ (a + i))
      ∧ 1 ≤ (postGo mR bo aMR aBo tokenEnv resourceEnv now s a).attempts := by
  intro s a
  induction s, a using postGo.induct mR bo aMR aBo tokenEnv resourceEnv now with
  | case1 s a g e hg hlt ih =>
    have hg' : (get_token aMR aBo (tokenEnv a) now s).result =
        Except.error (RefreshError.transport e) := hg
    rw [postGo_authTransport_retry hg' hlt]
    exact ⟨by simpa using sleeps_cons_shape ih.1 ih.2, by simp⟩
  | case2 s a g e hg hnlt =>
    have hg' : (get_token aMR aBo (tokenEnv a) now s).result =
        Except.error (RefreshError.transport e) := hg
    rw [postGo_authTransport_last hg' hnlt]
    simp
  | case3 s a g st hg =>
    have hg' : (get_token aMR aBo (tokenEnv a) now s).result =
        Except.error (RefreshError.httpStatus st) := hg
    rw [postGo_authHttp hg']
    simp
  | case4 s a g hg =>
    have hg' : (get_token aMR aBo (tokenEnv a) now s).result =
        Except.error RefreshError.missingAccessToken := hg
    rw [postGo_authMissing hg']
    simp
  | case5 s a g tok hg e hres hlt ih =>
    have hg' : (get_token aMR aBo (tokenEnv a) now s).result = Except.ok tok := hg
    rw [postGo_ok_exc_retry hg' hres hlt]
    exact ⟨by simpa using sleeps_cons_shape ih.1 ih.2, by simp⟩
  | case6 s a g tok hg e hres hnlt =>
    have hg' : (get_token aMR aBo (tokenEnv a) now s).result = Except.ok tok := hg
    rw [postGo_ok_exc_last hg' hres hnlt]
    simp
  | case7 s a g tok hg st body hres hcond ih =>
    have hg' : (get_token aMR aBo (tokenEnv a) now s).result = Except.ok tok := hg
    rw [postGo_ok_resp_retry hg' hres hcond.1 hcond.2]
    exact ⟨by simpa using sleeps_cons_shape ih.1 ih.2, by simp⟩
  | case8 s a g tok hg st body hres hcond h2xx =>
    have hg' : (get_token aMR aBo (tokenEnv a) now s).result = Except.ok tok := hg
    rw [postGo_ok_resp_non2xx hg' hres hcond h2xx]
    simp
  | case9 s a g tok hg st body hres hcond h2xx =>
    have hg' : (get_token aMR aBo (tokenEnv a) now s).result = Except.ok tok := hg
    have h2 : is2xx st = true := by
      cases hs : is2xx st
      · exact absurd hs h2xx
      · rfl
    rw [postGo_ok_resp_2xx hg' hres h2]
    simp


theorem get_token_valid {mR : Nat} {bo : ℚ} {env : Nat → TokenAttempt} {now : ℚ}
    {s : AuthState} (h : is_token_valid s now = true) :
    get_token mR bo env now s =
      { state := s, result := .ok (s.accessToken.getD ""), attempts := 0, sleeps := [] } := by
  simp [get_token, h]

theorem get_token_transport_exhausted {aMR : Nat} {aBo : ℚ} {env : Nat → TokenAttempt}
    {now : ℚ} {s : AuthState} {f : Nat → TransportErr}
    (hinv : is_token_valid s now = false) (hall : ∀ j, env j = .exc (f j)) :
    (get_token aMR aBo env now s).state = s ∧
    (get_token aMR aBo env now s).attempts = aMR + 1 ∧
    (get_token aMR aBo env now s).result = .error (.transport (f aMR)) := by
  have hra : ∀ i, retryableTokenAttempt (env i) = true := by
    intro i
    rw [hall i]
    rfl
  have h := @refreshGo_allRetryable aMR aBo env now s hra 0 (Nat.zero_le _)
  simp only [get_token, hinv, Bool.false_eq_true, if_false]
  refine ⟨h.2.1, by simpa using h.1, ?_⟩
  rw [h.2.2, hall aMR]
  rfl

theorem postGo_resource_allRetryable {mR : Nat} {bo : ℚ} {aMR : Nat} {aBo : ℚ}
    {tokenEnv : Nat → Nat → TokenAttempt} {resourceEnv : Nat → ResourceAttempt} {now : ℚ}
    (hall : ∀ i, retryableResourceAttempt (resourceEnv i) = true) :
    ∀ (k : Nat) (s : AuthState) (a : Nat), mR - a = k → is_token_valid s now = true → a ≤ mR →
      (postGo mR bo aMR aBo tokenEnv resourceEnv now s a).attempts = mR + 1 - a ∧
      (postGo mR bo aMR aBo tokenEnv resourceEnv now s a).resourceCalls = mR + 1 - a ∧
      (postGo mR bo aMR aBo tokenEnv resourceEnv now s a).tokenCalls = 0 ∧
      (postGo mR bo aMR aBo tokenEnv resourceEnv now s a).auth = s ∧
      (postGo mR bo aMR aBo tokenEnv resourceEnv now s a).result =
        terminalResourceError (resourceEnv mR) := by
  intro k
  induction k with
  | zero =>
    intro s a hk hv ha
    have ha' : a = mR := by omega
    have hg : (get_token aMR aBo (tokenEnv a) now s).result = .ok (s.accessToken.getD "") := by
      rw [get_token_valid hv]
    cases hres : resourceEnv a with
    | exc e =>
      rw [postGo_ok_exc_last hg hres (by omega), get_token_valid hv]
      refine ⟨by show 1 = mR + 1 - a; omega, by show 1 = mR + 1 - a; omega, rfl, rfl, ?_⟩
      show Except.error (RefreshError.transport e) = terminalResourceError (resourceEnv mR)
      rw [← ha', hres]
      rfl
    | resp st body =>
      have hretry : retryableStatus st = true := by
        have := hall a
        rw [hres] at this
        simpa [retryableResourceAttempt] using this
      rw [postGo_ok_resp_non2xx hg hres (fun hc => absurd hc.2 (by omega))
        (retryable_not_is2xx hretry), get_token_valid hv]
      refine ⟨by show 1 = mR + 1 - a; omega, by show 1 = mR + 1 - a; omega, rfl, rfl, ?_⟩
      show Except.error (RefreshError.httpStatus st) = terminalResourceError (resourceEnv mR)
      rw [← ha', hres]
      rfl
  | succ k ihk =>
    intro s a hk hv ha
    have hlt : a < mR := by omega
    have hg : (get_token aMR aBo (tokenEnv a) now s).result = .ok (s.accessToken.getD "") := by
      rw [get_token_valid hv]
    have hstate : (get_token aMR aBo (tokenEnv a) now s).state = s := by
      rw [get_token_valid hv]
    have hatt : (get_token aMR aBo (tokenEnv a) now s).attempts = 0 := by
      rw [get_token_valid hv]
    have ih := ihk s (a + 1) (by omega) hv (by omega)
    cases hres : resourceEnv a with
    | exc e =>
      rw [postGo_ok_exc_retry hg hres hlt, hstate, hatt]
      refine ⟨?_, ?_, ?_, ?_, ?_⟩
      · simp only [ih.1]
        omega
      · simp only [ih.2.1]
        omega
      · simp only [ih.2.2.1]
      · simp only [ih.2.2.2.1]
      · simp only [ih.2.2.2.2]
    | resp st body =>
      have hretry : retryableStatus st = true := by
        have := hall a
        rw [hres] at this
        simpa [retryableResourceAttempt] using this
      rw [postGo_ok_resp_retry hg hres hretry hlt, hstate, hatt]
      refine ⟨?_, ?_, ?_, ?_, ?_⟩
      · simp only [ih.1]
        omega
      · simp only [ih.2.1]
        omega
      · simp only [ih.2.2.1]
      · simp only [ih.2.2.2.1]
      · simp only [ih.2.2.2.2]


theorem postGo_token_unreachable {mR : Nat} {bo : ℚ} {aMR : Nat} {aBo : ℚ}
    {tokenEnv : Nat → Nat → TokenAttempt} {resourceEnv : Nat → ResourceAttempt} {now : ℚ}
    {f : Nat → Nat → TransportErr}
    (htok : ∀ i j, tokenEnv i j = .exc (f i j)) :
    ∀ (k : Nat) (s : AuthState) (a : Nat), mR - a = k → is_token_valid s now = false →
      a ≤ mR →
      (postGo mR bo aMR aBo tokenEnv resourceEnv now s a).tokenCalls =
        (mR + 1 - a) * (aMR + 1) ∧
      (postGo mR bo aMR aBo tokenEnv resourceEnv now s a).resourceCalls = 0 ∧
      (postGo mR bo aMR aBo tokenEnv resourceEnv now s a).attempts = mR + 1 - a ∧
      (postGo mR bo aMR aBo tokenEnv resourceEnv now s a).auth = s ∧
      (postGo mR bo aMR aBo tokenEnv resourceEnv now s a).result =
        .error (.transport (f mR aMR)) := by
  intro k
  induction k with
  | zero =>
    intro s a hk hv ha
    have ha' : a = mR := by omega
    have hge := @get_token_transport_exhausted aMR aBo (tokenEnv a) now s (f a) hv
      (fun j => htok a j)
    rw [postGo_authTransport_last hge.2.2 (by omega)]
    refine ⟨?_, rfl, ?_, hge.1, ?_⟩
    · show (get_token aMR aBo (tokenEnv a) now s).attempts = (mR + 1 - a) * (aMR + 1)
      rw [hge.2.1]
      have h1 : mR + 1 - a = 1 := by omega
      rw [h1, one_mul]
    · show 1 = mR + 1 - a
      omega
    · show Except.error (RefreshError.transport (f a aMR)) =
        Except.error (RefreshError.transport (f mR aMR))
      rw [ha']
  | succ k ihk =>
    intro s a hk hv ha
    have hlt : a < mR := by omega
    have hge := @get_token_transport_exhausted aMR aBo (tokenEnv a) now s (f a) hv
      (fun j => htok a j)
    rw [postGo_authTransport_retry hge.2.2 hlt, hge.1, hge.2.1]
    have ih := ihk s (a + 1) (by omega) hv (by omega)
    refine ⟨?_, ?_, ?_, ?_, ?_⟩
    · show aMR + 1 + (postGo mR bo aMR aBo tokenEnv resourceEnv now s (a + 1)).tokenCalls =
        (mR + 1 - a) * (aMR + 1)
      rw [ih.1]
      have h1 : mR + 1 - (a + 1) = mR - a := by omega
      have h2 : mR + 1 - a = (mR - a) + 1 := by omega
      rw [h1, h2, Nat.succ_mul]
      omega
    · exact ih.2.1
    · show (postGo mR bo aMR aBo tokenEnv resourceEnv now s (a + 1)).attempts + 1 = mR + 1 - a
      rw [ih.2.2.1]
      omega
    · exact ih.2.2.2.1
    · exact ih.2.2.2.2


theorem asyncRefreshGo_eq {mR : Nat} {bo : ℚ} {env : Nat → TokenAttempt} {now : ℚ}
    {s : AuthState} : ∀ a,
    asyncRefreshGo mR bo env now s a =
      { state := (refreshGo mR bo env now s a).state,
        result := (refreshGo mR bo env now s a).result.map (fun tr => tr.access_token),
        attempts := (refreshGo mR bo env now s a).attempts,
        sleeps := (refreshGo mR bo env now s a).sleeps } := by
  intro a
  induction a using refreshGo.induct mR bo env now s with
  | case1 x e henv hlt ih =>
    rw [refreshGo_exc_retry henv hlt, asyncRefreshGo.eq_def, henv]
    simp only [hlt, dif_pos]
    rw [ih]
  | case2 x e henv hnlt =>
    rw [refreshGo_exc_last henv hnlt, asyncRefreshGo.eq_def, henv]
    simp [hnlt, Except.map]
  | case3 x status j henv hcond ih =>
    rw [refreshGo_resp_retry henv hcond.1 hcond.2, asyncRefreshGo.eq_def, henv]
    simp only [hcond, and_self, dif_pos]
    rw [ih]
  | case4 x status j henv hcond h2xx =>
    rw [refreshGo_resp_noretry_non2xx henv hcond h2xx, asyncRefreshGo.eq_def, henv]
    simp [hcond, h2xx, Except.map]
  | case5 x status j henv hcond h2xx err0 hparse =>
    have h2 : is2xx status = true := by
      cases hs : is2xx status
      · exact absurd hs h2xx
      · rfl
    cases htok : j.access_token with
    | none =>
      rw [refreshGo_resp_2xx_missing henv h2 htok, asyncRefreshGo.eq_def, henv]
      simp [is2xx_not_retryable h2, h2, htok, Except.map]
    | some tok => simp [parseTokenResponse, htok] at hparse
  | case6 x status j henv hcond h2xx tr hparse =>
    have h2 : is2xx status = true := by
      cases hs : is2xx status
      · exact absurd hs h2xx
      · rfl
    cases htok : j.access_token with
    | none => simp [parseTokenResponse, htok] at hparse
    | some tok =>
      rw [refreshGo_resp_2xx_ok henv h2 htok, asyncRefreshGo.eq_def, henv]
      simp [is2xx_not_retryable h2, h2, htok, Except.map]

theorem asyncGetToken_eq {mR : Nat} {bo : ℚ} {env : Nat → TokenAttempt} {now : ℚ}
    {s : AuthState} :
    asyncGetToken mR bo env now s = get_token mR bo env now s := by
  rw [asyncGetToken, get_token]
  cases hv : is_token_valid s now
  · simp only [Bool.false_eq_true, if_false]
    rw [asyncRefreshGo_eq]
  · simp

theorem asyncPostGo_eq {mR : Nat} {bo : ℚ} {aMR : Nat} {aBo : ℚ}
    {tokenEnv : Nat → Nat → TokenAttempt} {resourceEnv : Nat → ResourceAttempt}
    {now : ℚ} :
    ∀ (s : AuthState) (a : Nat),
      asyncPostGo mR bo aMR aBo tokenEnv resourceEnv now s a =
        postGo mR bo aMR aBo tokenEnv resourceEnv now s a := by
  intro s a
  induction s, a using postGo.induct mR bo aMR aBo tokenEnv resourceEnv now with
  | case1 s a g e hg hlt ih =>
    have hg' : (get_token aMR aBo (tokenEnv a) now s).result =
        Except.error (RefreshError.transport e) := hg
    have ih' : asyncPostGo mR bo aMR aBo tokenEnv resourceEnv now
        (get_token aMR aBo (tokenEnv a) now s).state (a + 1) =
        postGo mR bo aMR aBo tokenEnv resourceEnv now
        (get_token aMR aBo (tokenEnv a) now s).state (a + 1) := ih
    rw [postGo_authTransport_retry hg' hlt, asyncPostGo.eq_def]
    simp only [asyncGetToken_eq, hg', hlt, dif_pos]
    rw [ih']
  | case2 s a g e hg hnlt =>
    have hg' : (get_token aMR aBo (tokenEnv a) now s).result =
        Except.error (RefreshError.transport e) := hg
    rw [postGo_authTransport_last hg' hnlt, asyncPostGo.eq_def]
    simp only [asyncGetToken_eq, hg', hnlt, dif_neg, not_false_iff]
  | case3 s a g st hg =>
    have hg' : (get_token aMR aBo (tokenEnv a) now s).result =
        Except.error (RefreshError.httpStatus st) := hg
    rw [postGo_authHttp hg', asyncPostGo.eq_def]
    simp only [asyncGetToken_eq, hg']
  | case4 s a g hg =>
    have hg' : (get_token aMR aBo (tokenEnv a) now s).result =
        Except.error RefreshError.missingAccessToken := hg
    rw [postGo_authMissing hg', asyncPostGo.eq_def]
    simp only [asyncGetToken_eq, hg']
  | case5 s a g tok hg e hres hlt ih =>
    have hg' : (get_token aMR aBo (tokenEnv a) now s).result = Except.ok tok := hg
    have ih' : asyncPostGo mR bo aMR aBo tokenEnv resourceEnv now
        (get_token aMR aBo (tokenEnv a) now s).state (a + 1) =
        postGo mR bo aMR aBo tokenEnv resourceEnv now
        (get_token aMR aBo (tokenEnv a) now s).state (a + 1) := ih
    rw [postGo_ok_exc_retry hg' hres hlt, asyncPostGo.eq_def]
    simp only [asyncGetToken_eq, hg', hres, hlt, dif_pos]
    rw [ih']
  | case6 s a g tok hg e hres hnlt =>
    have hg' : (get_token aMR aBo (tokenEnv a) now s).result = Except.ok tok := hg
    rw [postGo_ok_exc_last hg' hres hnlt, asyncPostGo.eq_def]
    simp only [asyncGetToken_eq, hg', hres, hnlt, dif_neg, not_false_iff]
  | case7 s a g tok hg st body hres hcond ih =>
    have hg' : (get_token aMR aBo (tokenEnv a) now s).result = Except.ok tok := hg
    have ih' : asyncPostGo mR bo aMR aBo tokenEnv resourceEnv now
        (get_token aMR aBo (tokenEnv a) now s).state (a + 1) =
        postGo mR bo aMR aBo tokenEnv resourceEnv now
        (get_token aMR aBo (tokenEnv a) now s).state (a + 1) := ih
    rw [postGo_ok_resp_retry hg' hres hcond.1 hcond.2, asyncPostGo.eq_def]
    simp only [asyncGetToken_eq, hg', hres, hcond, and_self, dif_pos]
    rw [ih']
  | case8 s a g tok hg st body hres hcond h2xx =>
    have hg' : (get_token aMR aBo (tokenEnv a) now s).result = Except.ok tok := hg
    rw [postGo_ok_resp_non2xx hg' hres hcond h2xx, asyncPostGo.eq_def]
    simp only [asyncGetToken_eq, hg', hres, hcond, h2xx, dif_neg, not_false_iff, if_true]
  | case9 s a g tok hg st body hres hcond h2xx =>
    have hg' : (get_token aMR aBo (tokenEnv a) now s).result = Except.ok tok := hg
    have h2 : is2xx st = true := by
      cases hs : is2xx st
      · exact absurd hs h2xx
      · rfl
    rw [postGo_ok_resp_2xx hg' hres h2, asyncPostGo.eq_def]
    simp only [asyncGetToken_eq, hg', hres, is2xx_not_retryable h2, h2]
    rw [dif_neg (by simp)]
    simp


/-- C1: for every manager state and time, `is_token_valid` is true iff a
token is cached (in the sense of the guard `if not self._access_token`,
which treats None and the empty string as no token) and the current time
is strictly below the stored expiry minus 60 seconds; in particular it is
false when no token is cached, and false at exactly `expiry - 60` and at
every later instant. -/
theorem token_validity_predicate (s : AuthState) (now : ℚ) :
    (is_token_valid s now = true ↔
      tokenTruthy s.accessToken = true ∧ now < s.tokenExpiry - 60) ∧
    (s.accessToken = none → is_token_valid s now = false) ∧
    (s.tokenExpiry - 60 ≤ now → is_token_valid s now = false) := by
  refine ⟨?_, ?_, ?_⟩
  · cases h : tokenTruthy s.accessToken <;> simp [is_token_valid, h]
  · intro h
    simp [is_token_valid, h, tokenTruthy]
  · intro h
    cases ht : tokenTruthy s.accessToken <;> simp [is_token_valid, ht]
    linarith

theorem token_validity_predicate_witness :
    is_token_valid { accessToken := none, tokenExpiry := 1000 } 0 = false ∧
    is_token_valid { accessToken := some "T1", tokenExpiry := 60 } 0 = false ∧
    is_token_valid { accessToken := some "T1", tokenExpiry := 1000 } 0 = true :=
  ⟨(token_validity_predicate _ 0).2.1 rfl,
   (token_validity_predicate _ 0).2.2 (by norm_num),
   (token_validity_predicate _ 0).1.mpr ⟨by decide, by norm_num⟩⟩

/-- C2: a manager whose cached token is valid at call time returns the
cached token from `get_token` with no token-endpoint I/O; consequently,
starting from an invalid state, a first call whose initial exchange
succeeds (2xx, access_token present and nonempty, effective expires_in
above the 60-second margin) performs exactly one exchange, and a second
call at the same instant performs none and returns the same token. -/
theorem get_token_caching (mR : Nat) (bo : ℚ) (env env2 : Nat → TokenAttempt)
    (now : ℚ) (s : AuthState) (status : Nat) (j : TokenJson) (tok : String) :
    (is_token_valid s now = true →
      get_token mR bo env now s =
        { state := s, result := .ok (s.accessToken.getD ""),
          attempts := 0, sleeps := [] }) ∧
    (is_token_valid s now = false → env 0 = .resp status j → is2xx status = true →
     j.access_token = some tok → tok ≠ "" → 60 < j.expires_in.getD 900 →
      (get_token mR bo env now s).attempts = 1 ∧
      (get_token mR bo env now s).result = .ok tok ∧
      get_token mR bo env2 now (get_token mR bo env now s).state =
        { state := (get_token mR bo env now s).state, result := .ok tok,
          attempts := 0, sleeps := [] }) := by
  refine ⟨get_token_valid, ?_⟩
  intro hinv henv h2xx htok hne hexp
  have hgt : get_token mR bo env now s =
      { state := { accessToken := some tok, tokenExpiry := now + j.expires_in.getD 900 },
        result := .ok tok, attempts := 1, sleeps := [] } := by
    simp only [get_token, hinv, Bool.false_eq_true, if_false]
    rw [refreshGo_resp_2xx_ok henv h2xx htok]
    simp [Except.map]
  have hvalid2 : is_token_valid
      { accessToken := some tok, tokenExpiry := now + j.expires_in.getD 900 } now = true := by
    simp [is_token_valid, tokenTruthy, hne]
    linarith
  refine ⟨by rw [hgt], by rw [hgt], ?_⟩
  rw [hgt]
  exact get_token_valid hvalid2

theorem get_token_caching_witness :
    (get_token 3 1 (fun _ => .resp 200 ⟨some "T1", none, some 900, none⟩)
      0 initialAuthState).attempts = 1 ∧
    (get_token 3 1 (fun _ => .resp 200 ⟨some "T1", none, some 900, none⟩)
      0 initialAuthState).result = .ok "T1" ∧
    get_token 3 1 (fun _ => .resp 200 ⟨some "T1", none, some 900, none⟩) 0
      (get_token 3 1 (fun _ => .resp 200 ⟨some "T1", none, some 900, none⟩)
        0 initialAuthState).state =
      { state := (get_token 3 1 (fun _ => .resp 200 ⟨some "T1", none, some 900, none⟩)
          0 initialAuthState).state,
        result := .ok "T1", attempts := 0, sleeps := [] } :=
  (get_token_caching 3 1 (fun _ => .resp 200 ⟨some "T1", none, some 900, none⟩)
    (fun _ => .resp 200 ⟨some "T1", none, some 900, none⟩) 0 initialAuthState
    200 ⟨some "T1", none, some 900, none⟩ "T1").2
    (by decide) rfl (by decide) rfl (by decide) (by norm_num)

/-- C3: with maxRetries = N, a run of the token-refresh loop whose every
attempt is retryable makes exactly N + 1 token-endpoint calls and ends in
the terminal error of the final attempt; likewise the executor loop,
under a valid cached token, makes exactly N + 1 resource-endpoint calls
when every resource attempt is retryable.  Terminal outcomes of
all-retryable runs are always errors. -/
theorem retry_count_exhaustive (mR : Nat) (bo : ℚ) (env : Nat → TokenAttempt)
    (aMR : Nat) (aBo : ℚ) (tokenEnv : Nat → Nat → TokenAttempt)
    (resourceEnv : Nat → ResourceAttempt) (now : ℚ) (s s2 : AuthState) :
    ((∀ i, retryableTokenAttempt (env i) = true) →
      (refresh_token mR bo env now s).attempts = mR + 1 ∧
      (refresh_token mR bo env now s).result = terminalTokenError (env mR)) ∧
    ((∀ i, retryableResourceAttempt (resourceEnv i) = true) →
     is_token_valid s2 now = true →
      (postGo mR bo aMR aBo tokenEnv resourceEnv now s2 0).resourceCalls = mR + 1 ∧
      (postGo mR bo aMR aBo tokenEnv resourceEnv now s2 0).attempts = mR + 1 ∧
      (postGo mR bo aMR aBo tokenEnv resourceEnv now s2 0).result =
        terminalResourceError (resourceEnv mR)) ∧
    (∀ att, ∃ err, terminalTokenError att = Except.error err) ∧
    (∀ att, ∃ err, terminalResourceError att = Except.error err) := by
  refine ⟨?_, ?_, ?_, ?_⟩
  · intro hall
    have h := @refreshGo_allRetryable mR bo env now s hall 0 (Nat.zero_le _)
    exact ⟨by simpa using h.1, h.2.2⟩
  · intro hall hv
    have h := @postGo_resource_allRetryable mR bo aMR aBo tokenEnv resourceEnv now hall
      (mR - 0) s2 0 rfl hv (Nat.zero_le _)
    exact ⟨by simpa using h.2.1, by simpa using h.1, h.2.2.2.2⟩
  · intro att
    cases att with
    | exc e => exact ⟨.transport e, rfl⟩
    | resp status j => exact ⟨.httpStatus status, rfl⟩
  · intro att
    cases att with
    | exc e => exact ⟨.transport e, rfl⟩
    | resp status body => exact ⟨.httpStatus status, rfl⟩

theorem retry_count_exhaustive_witness :
    (refresh_token 2 1 (fun _ => .exc .readTimeout) 0 initialAuthState).attempts = 3 ∧
    (postGo 2 1 2 1 (fun _ _ => .resp 200 ⟨some "T", none, none, none⟩)
      (fun _ => .resp 503 "") 0 { accessToken := some "T", tokenExpiry := 1000 }
      0).resourceCalls = 3 := by
  have h := retry_count_exhaustive 2 1 (fun _ => .exc .readTimeout) 2 1
    (fun _ _ => .resp 200 ⟨some "T", none, none, none⟩) (fun _ => .resp 503 "") 0
    initialAuthState { accessToken := some "T", tokenExpiry := 1000 }
  exact ⟨(h.1 (fun i => rfl)).1,
    (h.2.1 (fun i => by decide) (by simp [is_token_valid, tokenTruthy]; norm_num)).1⟩

/-- C4 counterexample: a `_refresh_token` run that fails terminally (here
two transport failures with maxRetries = 1) propagates the error but
leaves the previously cached token in place: the state is NOT cleared to
the no-token state. -/
theorem refresh_failure_state_counterexample :
    (refreshGo 1 1 (fun _ => .exc .connectTimeout) 2000
        { accessToken := some "OLD", tokenExpiry := 1000 } 0).result =
      .error (.transport .connectTimeout) ∧
    (refreshGo 1 1 (fun _ => .exc .connectTimeout) 2000
        { accessToken := some "OLD", tokenExpiry := 1000 } 0).state.accessToken =
      some "OLD" ∧
    some "OLD" ≠ (none : Option String) := by
  have h := @refreshGo_allRetryable 1 1 (fun _ => .exc .connectTimeout) 2000
    { accessToken := some "OLD", tokenExpiry := 1000 } (fun i => rfl) 0 (by omega)
  exact ⟨by rw [h.2.2]; rfl, by rw [h.2.1], by simp⟩

/-- C4 amended: when `_refresh_token` fails after exhausting all retries,
the terminal error is propagated and the manager's token state is left
exactly as it was before the refresh began (in particular a stale cached
token is not cleared). -/
theorem refresh_failure_state_unchanged (mR : Nat) (bo : ℚ) (env : Nat → TokenAttempt)
    (now : ℚ) (s : AuthState) (err : RefreshError)
    (h : (refresh_token mR bo env now s).result = .error err) :
    (refresh_token mR bo env now s).state = s :=
  refreshGo_error_state 0 err h

theorem refresh_failure_state_unchanged_witness :
    (refresh_token 0 1 (fun _ => .exc .readTimeout) 0
      { accessToken := some "OLD", tokenExpiry := 1000 }).state =
      { accessToken := some "OLD", tokenExpiry := 1000 } :=
  refresh_failure_state_unchanged 0 1 (fun _ => .exc .readTimeout) 0
    { accessToken := some "OLD", tokenExpiry := 1000 } (.transport .readTimeout)
    (by simp [refresh_token, refreshGo])


/-- C5: when the final attempt (attempt = maxRetries) of the token-refresh
or resource loop receives a response with a retryable status code, no
further retry and no backoff sleep occurs: the loop falls through to
`raise_for_status` and raises the standard HTTP-status error carrying the
final response's status. -/
theorem retryable_status_exhaustion (mR : Nat) (bo : ℚ) (env : Nat → TokenAttempt)
    (aMR : Nat) (aBo : ℚ) (tokenEnv : Nat → Nat → TokenAttempt)
    (resourceEnv : Nat → ResourceAttempt) (now : ℚ) (s s2 : AuthState)
    (status : Nat) (j : TokenJson) (body : String) :
    (env mR = .resp status j → retryableStatus status = true →
      refreshGo mR bo env now s mR =
        { state := s, result := .error (.httpStatus status),
          attempts := 1, sleeps := [] }) ∧
    (resourceEnv mR = .resp status body → retryableStatus status = true →
     is_token_valid s2 now = true →
      postGo mR bo aMR aBo tokenEnv resourceEnv now s2 mR =
        { auth := s2, result := .error (.httpStatus status), attempts := 1,
          resourceCalls := 1, tokenCalls := 0, sleeps := [] }) := by
  constructor
  · intro henv hr
    exact refreshGo_resp_noretry_non2xx henv (fun hc => absurd hc.2 (lt_irrefl mR))
      (retryable_not_is2xx hr)
  · intro hres hr hv
    have hg : (get_token aMR aBo (tokenEnv mR) now s2).result =
        .ok (s2.accessToken.getD "") := by
      rw [get_token_valid hv]
    rw [postGo_ok_resp_non2xx hg hres (fun hc => absurd hc.2 (lt_irrefl mR))
      (retryable_not_is2xx hr)]
    rw [get_token_valid hv]

theorem retryable_status_exhaustion_witness :
    refreshGo 2 1 (fun _ => .resp 503 ⟨none, none, none, none⟩) 0 initialAuthState 2 =
      { state := initialAuthState, result := .error (.httpStatus 503),
        attempts := 1, sleeps := [] } ∧
    postGo 2 1 2 1 (fun _ _ => .resp 200 ⟨some "T", none, none, none⟩)
      (fun _ => .resp 429 "") 0 { accessToken := some "T", tokenExpiry := 1000 } 2 =
      { auth := { accessToken := some "T", tokenExpiry := 1000 },
        result := .error (.httpStatus 429), attempts := 1,
        resourceCalls := 1, tokenCalls := 0, sleeps := [] } := by
  have h := retryable_status_exhaustion 2 1 (fun _ => .resp 503 ⟨none, none, none, none⟩)
    2 1 (fun _ _ => .resp 200 ⟨some "T", none, none, none⟩) (fun _ => .resp 429 "") 0
    initialAuthState { accessToken := some "T", tokenExpiry := 1000 } 503
    ⟨none, none, none, none⟩ ""
  have h2 := retryable_status_exhaustion 2 1 (fun _ => .resp 503 ⟨none, none, none, none⟩)
    2 1 (fun _ _ => .resp 200 ⟨some "T", none, none, none⟩) (fun _ => .resp 429 "") 0
    initialAuthState { accessToken := some "T", tokenExpiry := 1000 } 429
    ⟨none, none, none, none⟩ ""
  exact ⟨h.1 rfl (by decide),
    h2.2 rfl (by decide) (by simp [is_token_valid, tokenTruthy]; norm_num)⟩

/-- C6: a resource call whose first attempt receives a non-2xx status
outside the retryable set makes exactly one attempt, sleeps no backoff,
performs no further resource calls, and immediately raises the
HTTP-status error for that status. -/
theorem non_retryable_status_no_retry (mR : Nat) (bo : ℚ) (aMR : Nat) (aBo : ℚ)
    (tokenEnv : Nat → Nat → TokenAttempt) (resourceEnv : Nat → ResourceAttempt)
    (now : ℚ) (s : AuthState) (status : Nat) (body : String)
    (hv : is_token_valid s now = true)
    (hres : resourceEnv 0 = .resp status body)
    (hst : is2xx status = false)
    (hnr : retryableStatus status = false) :
    postGo mR bo aMR aBo tokenEnv resourceEnv now s 0 =
      { auth := s, result := .error (.httpStatus status), attempts := 1,
        resourceCalls := 1, tokenCalls := 0, sleeps := [] } := by
  have hg : (get_token aMR aBo (tokenEnv 0) now s).result =
      .ok (s.accessToken.getD "") := by
    rw [get_token_valid hv]
  rw [postGo_ok_resp_non2xx hg hres
    (fun hc => by rw [hnr] at hc; exact absurd hc.1 (by simp)) hst]
  rw [get_token_valid hv]

theorem non_retryable_status_no_retry_witness :
    postGo 3 1 3 1 (fun _ _ => .resp 200 ⟨some "T", none, none, none⟩)
      (fun _ => .resp 401 "") 0 { accessToken := some "T", tokenExpiry := 1000 } 0 =
      { auth := { accessToken := some "T", tokenExpiry := 1000 },
        result := .error (.httpStatus 401), attempts := 1,
        resourceCalls := 1, tokenCalls := 0, sleeps := [] } :=
  non_retryable_status_no_retry 3 1 3 1 (fun _ _ => .resp 200 ⟨some "T", none, none, none⟩)
    (fun _ => .resp 401 "") 0 { accessToken := some "T", tokenExpiry := 1000 } 401 ""
    (by simp [is_token_valid, tokenTruthy]; norm_num) rfl (by decide) (by decide)

/-- C7: in both retry loops, the delays slept form exactly the sequence
`backoff * 2 ^ attempt` for attempt = 0, 1, ... (exponential, no jitter),
one delay per retry, and no sleep follows the final attempt (the number
of sleeps is one less than the number of attempts). -/
theorem backoff_growth (mR : Nat) (bo : ℚ) (env : Nat → TokenAttempt)
    (aMR : Nat) (aBo : ℚ) (tokenEnv : Nat → Nat → TokenAttempt)
    (resourceEnv : Nat → ResourceAttempt) (now : ℚ) (s s2 : AuthState) :
    ((refresh_token mR bo env now s).sleeps =
      (List.range ((refresh_token mR bo env now s).attempts - 1)).map
        (fun i => bo * 2 ^ i) ∧
     (refresh_token mR bo env now s).sleeps.length =
      (refresh_token mR bo env now s).attempts - 1) ∧
    ((postGo mR bo aMR aBo tokenEnv resourceEnv now s2 0).sleeps =
      (List.range ((postGo mR bo aMR aBo tokenEnv resourceEnv now s2 0).attempts - 1)).map
        (fun i => bo * 2 ^ i) ∧
     (postGo mR bo aMR aBo tokenEnv resourceEnv now s2 0).sleeps.length =
      (postGo mR bo aMR aBo tokenEnv resourceEnv now s2 0).attempts - 1) := by
  have h1 := @refreshGo_sleeps_shape mR bo env now s 0
  have h2 := @postGo_sleeps_shape mR bo aMR aBo tokenEnv resourceEnv now s2 0
  rw [show refresh_token mR bo env now s = refreshGo mR bo env now s 0 from rfl]
  refine ⟨⟨?_, ?_⟩, ⟨?_, ?_⟩⟩
  · rw [h1.1]
    simp
  · rw [h1.1]
    simp
  · rw [h2.1]
    simp
  · rw [h2.1]
    simp

/-- C8: parsing of a 2xx token response: a missing `token_type` defaults
to "Bearer", a missing `expires_in` defaults to 900 (so the stored expiry
becomes now + 900), a missing `scope` defaults to ""; a 2xx response
missing `access_token` raises immediately and is never retried by the
retry loop, leaving the state unchanged. -/
theorem token_response_parsing (mR : Nat) (bo : ℚ) (env : Nat → TokenAttempt)
    (now : ℚ) (s : AuthState) (a : Nat) (status : Nat) (j : TokenJson) (tok : String)
    (henv : env a = .resp status j) (h2xx : is2xx status = true) :
    (j.access_token = none →
      refreshGo mR bo env now s a =
        { state := s, result := .error .missingAccessToken,
          attempts := 1, sleeps := [] }) ∧
    (j.access_token = some tok →
      refreshGo mR bo env now s a =
        { state := { accessToken := some tok,
                     tokenExpiry := now + j.expires_in.getD 900 },
          result := .ok { access_token := tok,
                          token_type := j.token_type.getD "Bearer",
                          expires_in := j.expires_in.getD 900,
                          scope := j.scope.getD "" },
          attempts := 1, sleeps := [] }) ∧
    (j.access_token = some tok → j.expires_in = none →
      (refreshGo mR bo env now s a).state.tokenExpiry = now + 900) := by
  refine ⟨fun h => refreshGo_resp_2xx_missing henv h2xx h,
          fun h => refreshGo_resp_2xx_ok henv h2xx h, ?_⟩
  intro h hexp
  rw [refreshGo_resp_2xx_ok henv h2xx h]
  simp [hexp]

theorem token_response_parsing_witness :
    refreshGo 3 1 (fun _ => .resp 200 ⟨none, none, none, none⟩) 0 initialAuthState 0 =
      { state := initialAuthState, result := .error .missingAccessToken,
        attempts := 1, sleeps := [] } ∧
    refreshGo 3 1 (fun _ => .resp 200 ⟨some "T1", none, none, none⟩) 5 initialAuthState 0 =
      { state := { accessToken := some "T1", tokenExpiry := 5 + 900 },
        result := .ok { access_token := "T1", token_type := "Bearer",
                        expires_in := 900, scope := "" },
        attempts := 1, sleeps := [] } := by
  have h1 := token_response_parsing 3 1 (fun _ => .resp 200 ⟨none, none, none, none⟩)
    0 initialAuthState 0 200 ⟨none, none, none, none⟩ "T1" rfl (by decide)
  have h2 := token_response_parsing 3 1 (fun _ => .resp 200 ⟨some "T1", none, none, none⟩)
    5 initialAuthState 0 200 ⟨some "T1", none, none, none⟩ "T1" rfl (by decide)
  exact ⟨h1.1 rfl, h2.2.1 rfl⟩

/-- C9: for every identical sequence of endpoint responses/exceptions the
blocking and the cooperative variants behave identically: the async
refresh loop produces the same final state, the same returned token (the
sync variant's parsed response projected to its access_token), the same
attempt count and the same backoff delays; and the async executor is
extensionally equal to the blocking executor. -/
theorem sync_async_equivalence :
    (∀ (mR : Nat) (bo : ℚ) (env : Nat → TokenAttempt) (now : ℚ) (s : AuthState) (a : Nat),
      (asyncRefreshGo mR bo env now s a).state = (refreshGo mR bo env now s a).state ∧
      (asyncRefreshGo mR bo env now s a).result =
        (refreshGo mR bo env now s a).result.map (fun tr => tr.access_token) ∧
      (asyncRefreshGo mR bo env now s a).attempts = (refreshGo mR bo env now s a).attempts ∧
      (asyncRefreshGo mR bo env now s a).sleeps = (refreshGo mR bo env now s a).sleeps) ∧
    (∀ (mR : Nat) (bo : ℚ) (env : Nat → TokenAttempt) (now : ℚ) (s : AuthState),
      asyncGetToken mR bo env now s = get_token mR bo env now s) ∧
    (∀ (mR : Nat) (bo : ℚ) (aMR : Nat) (aBo : ℚ) (tokenEnv : Nat → Nat → TokenAttempt)
        (resourceEnv : Nat → ResourceAttempt) (now : ℚ) (s : AuthState) (a : Nat),
      asyncPostGo mR bo aMR aBo tokenEnv resourceEnv now s a =
        postGo mR bo aMR aBo tokenEnv resourceEnv now s a) := by
  refine ⟨?_, ?_, ?_⟩
  · intro mR bo env now s a
    rw [asyncRefreshGo_eq a]
    exact ⟨rfl, rfl, rfl, rfl⟩
  · intro mR bo env now s
    exact asyncGetToken_eq
  · intro mR bo aMR aBo tokenEnv resourceEnv now s a
    exact asyncPostGo_eq s a

/-- C10: the executor obtains the bearer token inside its retry loop, so
the token is re-requested on every executor attempt; a transport error
from the auth client's own exhausted retry loop consumes one executor
attempt.  With maxRetries = N on both components and a permanently
transport-failing token endpoint, one post() call makes (N+1)*(N+1)
token-endpoint HTTP requests and zero resource requests before the
terminal transport error is raised. -/
theorem nested_retry_token_unreachable (N : Nat) (bo aBo : ℚ)
    (tokenEnv : Nat → Nat → TokenAttempt) (resourceEnv : Nat → ResourceAttempt)
    (now : ℚ) (s : AuthState) (f : Nat → Nat → TransportErr)
    (htok : ∀ i j, tokenEnv i j = .exc (f i j))
    (hinv : is_token_valid s now = false) :
    (postGo N bo N aBo tokenEnv resourceEnv now s 0).tokenCalls = (N + 1) * (N + 1) ∧
    (postGo N bo N aBo tokenEnv resourceEnv now s 0).resourceCalls = 0 ∧
    (postGo N bo N aBo tokenEnv resourceEnv now s 0).attempts = N + 1 ∧
    (postGo N bo N aBo tokenEnv resourceEnv now s 0).result =
      .error (.transport (f N N)) := by
  have h := @postGo_token_unreachable N bo N aBo tokenEnv resourceEnv now f htok
    (N - 0) s 0 rfl hinv (Nat.zero_le _)
  exact ⟨by simpa using h.1, h.2.1, by simpa using h.2.2.1, h.2.2.2.2⟩

theorem nested_retry_token_unreachable_witness :
    (postGo 1 1 1 1 (fun _ _ => .exc .connectTimeout) (fun _ => .resp 200 "") 0
      initialAuthState 0).tokenCalls = 4 ∧
    (postGo 1 1 1 1 (fun _ _ => .exc .connectTimeout) (fun _ => .resp 200 "") 0
      initialAuthState 0).resourceCalls = 0 ∧
    (postGo 1 1 1 1 (fun _ _ => .exc .connectTimeout) (fun _ => .resp 200 "") 0
      initialAuthState 0).attempts = 2 ∧
    (postGo 1 1 1 1 (fun _ _ => .exc .connectTimeout) (fun _ => .resp 200 "") 0
      initialAuthState 0).result = .error (.transport .connectTimeout) :=
  nested_retry_token_unreachable 1 1 1 (fun _ _ => .exc .connectTimeout)
    (fun _ => .resp 200 "") 0 initialAuthState (fun _ _ => .connectTimeout)
    (fun i j => rfl) (by decide)

end InsightsSDK
